import Mathlib

/-!
Verification of the uint128 invocation compiler of the sierra-to-casm layer.

The repository ships the golden-output test suite
(crates/sierra_to_casm/src/invocations/uint128_test.rs) but not the bodies of
the per-operation compilers themselves; following the specification, the five
compilers are modelled here from the spec text and the literal golden
instruction sequences, which the spec designates as authoritative.

The data model mirrors the casm crate: CellRef, ResOperand, InstructionBody,
Instruction (with inc ap flag and attached hints), Hint, ApChange,
RelocationEntry, ReducedBranchChanges and ReducedCompiledInvocation.
-/

namespace Uint128

/-- The two base registers of the target machine. -/
inductive Register
  | AP
  | FP
  deriving DecidableEq, Repr

/-- A memory cell: a signed offset from one of the two base registers. -/
structure CellRef where
  register : Register
  offset : Int
  deriving DecidableEq, Repr

/-- Either a cell dereference or an immediate, as the second operand of a
binary operation. -/
inductive DerefOrImmediate
  | Deref (c : CellRef)
  | Immediate (n : Int)
  deriving DecidableEq, Repr

/-- The binary operations appearing in assert-eq right-hand sides. -/
inductive Operation
  | Add
  deriving DecidableEq, Repr

/-- Right-hand side of an assert-eq instruction. -/
inductive ResOperand
  | Deref (c : CellRef)
  | DoubleDeref (c : CellRef) (off : Int)
  | Immediate (n : Int)
  | BinOp (op : Operation) (a : CellRef) (b : DerefOrImmediate)
  deriving DecidableEq, Repr

/-- Nondeterministic hints: a prover-side write of a comparison result into a
destination cell, never constraining execution by itself. -/
inductive Hint
  | TestLessThan (lhs rhs : ResOperand) (dst : CellRef)
  | TestLessThanOrEqual (lhs rhs : ResOperand) (dst : CellRef)
  deriving DecidableEq, Repr

/-- Instruction bodies: assert-eq, conditional relative jump (on a nonzero
condition cell) and unconditional relative jump. -/
inductive InstructionBody
  | AssertEq (a : CellRef) (b : ResOperand)
  | Jump (target : Int)
  | Jnz (target : Int) (condition : CellRef)
  deriving DecidableEq, Repr

/-- One emitted instruction: a body, whether it advances the allocation
pointer as a side effect, and the hints attached right before it. -/
structure Instruction where
  body : InstructionBody
  inc_ap : Bool
  hints : List Hint
  deriving DecidableEq, Repr

/-- Per-branch allocation-pointer change. -/
inductive ApChange
  | Known (n : Nat)
  | Unknown
  deriving DecidableEq, Repr

/-- Symbolic relocation target: an IR statement index. -/
inductive Relocation
  | RelativeStatementId (idx : Nat)
  deriving DecidableEq, Repr

/-- A deferred patch: the jump at the given instruction index must be
re-targeted to the final address of the given statement. -/
structure RelocationEntry where
  instruction_idx : Nat
  relocation : Relocation
  deriving DecidableEq, Repr

/-- A single output reference: either a plain cell dereference or a cell value
plus an immediate (pointer arithmetic such as a range-check pointer plus one). -/
inductive CellExpression
  | Deref (c : CellRef)
  | BinOpAdd (a : CellRef) (b : Int)
  deriving DecidableEq, Repr

/-- Output references and allocation change of one branch. -/
structure ReducedBranchChanges where
  refs : List CellExpression
  ap_change : ApChange
  deriving DecidableEq, Repr

/-- The full output of compiling one invocation. -/
structure ReducedCompiledInvocation where
  instructions : List Instruction
  relocations : List RelocationEntry
  results : List ReducedBranchChanges
  deriving DecidableEq, Repr

/-- 2 to the 128th power, the wrap-around modulus of the uint128 operations. -/
def u128Limit : Int := 2 ^ 128

/-- Shift an ap-based reference after the allocation pointer advanced n times;
fp-based references are unaffected.  This is the Reference Model of the spec:
the same cell, seen from a deeper allocation pointer. -/
def advanceRef (n : Int) (c : CellRef) : CellRef :=
  match c.register with
  | .AP => ⟨.AP, c.offset - n⟩
  | .FP => c

/-- Modelled from the spec: the overflow-add compiler
(crates/sierra_to_casm/src/invocations/uint128.rs is absent from the sources;
only its golden tests are present).  Inputs are the range-check pointer and the
two operands; idx is the statement index, the relocation targets idx+1.
The sum is computed into a fresh cell, a hint guesses whether it is below
2^128, the conditional jump takes the no-overflow path, and the fallthrough
subtracts 2^128 and ends in the relocated jump. -/
def build_uint128_overflow_add (idx : Nat) (range_check a b : CellRef) :
    ReducedCompiledInvocation where
  instructions := [
    ⟨.AssertEq ⟨.AP, 1⟩ (.BinOp .Add a (.Deref b)), true, []⟩,
    ⟨.Jnz 7 ⟨.AP, -1⟩, true,
      [.TestLessThan (.Deref ⟨.AP, 0⟩) (.Immediate u128Limit) ⟨.AP, -1⟩]⟩,
    ⟨.AssertEq ⟨.AP, -1⟩ (.BinOp .Add ⟨.AP, 0⟩ (.Immediate u128Limit)), true, []⟩,
    ⟨.AssertEq ⟨.AP, -1⟩ (.DoubleDeref (advanceRef 3 range_check) 0), false, []⟩,
    ⟨.Jump 0, false, []⟩,
    ⟨.AssertEq ⟨.AP, -1⟩ (.DoubleDeref (advanceRef 2 range_check) 0), false, []⟩]
  relocations := [⟨4, .RelativeStatementId (idx + 1)⟩]
  results := [
    ⟨[.BinOpAdd (advanceRef 2 range_check) 1, .Deref ⟨.AP, -1⟩], .Known 2⟩,
    ⟨[.BinOpAdd (advanceRef 3 range_check) 1, .Deref ⟨.AP, -1⟩], .Known 3⟩]

/-- Modelled from the spec: the overflow-sub compiler (source body absent, see
build_uint128_overflow_add).  Symmetric to overflow-add with subtraction
expressed as a = fresh + b, so the fresh difference cell is an operand of the
first assert rather than its destination. -/
def build_uint128_overflow_sub (idx : Nat) (range_check a b : CellRef) :
    ReducedCompiledInvocation where
  instructions := [
    ⟨.AssertEq a (.BinOp .Add ⟨.AP, 1⟩ (.Deref b)), true, []⟩,
    ⟨.Jnz 7 ⟨.AP, -1⟩, true,
      [.TestLessThan (.Deref ⟨.AP, 0⟩) (.Immediate u128Limit) ⟨.AP, -1⟩]⟩,
    ⟨.AssertEq ⟨.AP, 0⟩ (.BinOp .Add ⟨.AP, -1⟩ (.Immediate u128Limit)), true, []⟩,
    ⟨.AssertEq ⟨.AP, -1⟩ (.DoubleDeref (advanceRef 3 range_check) 0), false, []⟩,
    ⟨.Jump 0, false, []⟩,
    ⟨.AssertEq ⟨.AP, -1⟩ (.DoubleDeref (advanceRef 2 range_check) 0), false, []⟩]
  relocations := [⟨4, .RelativeStatementId (idx + 1)⟩]
  results := [
    ⟨[.BinOpAdd (advanceRef 2 range_check) 1, .Deref ⟨.AP, -1⟩], .Known 2⟩,
    ⟨[.BinOpAdd (advanceRef 3 range_check) 1, .Deref ⟨.AP, -1⟩], .Known 3⟩]

/-- Modelled from the spec: the less-than compiler (source body absent, see
build_uint128_overflow_add).  The hint guesses b (the rhs) less-or-equal a
(the lhs), i.e. the negation of a less-than b; the conditional jump takes that
path and verifies a = fresh + b, while the fallthrough verifies
b = fresh + (a + 1). -/
def build_uint128_lt (idx : Nat) (range_check a b : CellRef) :
    ReducedCompiledInvocation where
  instructions := [
    ⟨.Jnz 8 ⟨.AP, 0⟩, true,
      [.TestLessThanOrEqual (.Deref b) (.Deref a) ⟨.AP, 0⟩]⟩,
    ⟨.AssertEq ⟨.AP, 0⟩ (.BinOp .Add (advanceRef 1 a) (.Immediate 1)), true, []⟩,
    ⟨.AssertEq (advanceRef 2 b) (.BinOp .Add ⟨.AP, 0⟩ (.Deref ⟨.AP, -1⟩)), true, []⟩,
    ⟨.AssertEq ⟨.AP, -1⟩ (.DoubleDeref (advanceRef 3 range_check) 0), false, []⟩,
    ⟨.Jump 0, false, []⟩,
    ⟨.AssertEq (advanceRef 1 a) (.BinOp .Add ⟨.AP, 0⟩ (.Deref (advanceRef 1 b))), true, []⟩,
    ⟨.AssertEq ⟨.AP, -1⟩ (.DoubleDeref (advanceRef 2 range_check) 0), false, []⟩]
  relocations := [⟨4, .RelativeStatementId (idx + 1)⟩]
  results := [
    ⟨[.BinOpAdd (advanceRef 2 range_check) 1], .Known 2⟩,
    ⟨[.BinOpAdd (advanceRef 3 range_check) 1], .Known 3⟩]

/-- Modelled from the spec: the equality compiler (source body absent, see
build_uint128_overflow_add).  Asserts a = fresh + b, jumps on the fresh
difference being nonzero, and otherwise falls through to the relocated
zero-offset jump. -/
def build_uint128_eq (idx : Nat) (a b : CellRef) : ReducedCompiledInvocation where
  instructions := [
    ⟨.AssertEq a (.BinOp .Add ⟨.AP, 0⟩ (.Deref b)), true, []⟩,
    ⟨.Jnz 4 ⟨.AP, -1⟩, false, []⟩,
    ⟨.Jump 0, false, []⟩]
  relocations := [⟨2, .RelativeStatementId (idx + 1)⟩]
  results := [⟨[], .Known 1⟩, ⟨[], .Known 1⟩]

/-- Modelled from the spec: the less-or-equal compiler (source body absent, see
build_uint128_overflow_add).  The hint guesses b strictly below a, i.e. the
negation of a less-or-equal b; the conditional jump takes that path and
verifies a = fresh + (b + 1), while the fallthrough verifies b = fresh + a. -/
def build_uint128_le (idx : Nat) (range_check a b : CellRef) :
    ReducedCompiledInvocation where
  instructions := [
    ⟨.Jnz 6 ⟨.AP, 0⟩, true,
      [.TestLessThan (.Deref b) (.Deref a) ⟨.AP, 0⟩]⟩,
    ⟨.AssertEq (advanceRef 1 b) (.BinOp .Add ⟨.AP, 0⟩ (.Deref (advanceRef 1 a))), true, []⟩,
    ⟨.AssertEq ⟨.AP, -1⟩ (.DoubleDeref (advanceRef 2 range_check) 0), false, []⟩,
    ⟨.Jump 0, false, []⟩,
    ⟨.AssertEq ⟨.AP, 0⟩ (.BinOp .Add (advanceRef 1 b) (.Immediate 1)), true, []⟩,
    ⟨.AssertEq (advanceRef 2 a) (.BinOp .Add ⟨.AP, 0⟩ (.Deref ⟨.AP, -1⟩)), true, []⟩,
    ⟨.AssertEq ⟨.AP, -1⟩ (.DoubleDeref (advanceRef 3 range_check) 0), false, []⟩]
  relocations := [⟨3, .RelativeStatementId (idx + 1)⟩]
  results := [
    ⟨[.BinOpAdd (advanceRef 3 range_check) 1], .Known 3⟩,
    ⟨[.BinOpAdd (advanceRef 2 range_check) 1], .Known 2⟩]

/-- Failures of the invocation compiler: an operation name outside the five
fixed strings, or an input list of the wrong length. -/
inductive CompileError
  | unknownOperation
  | arityMismatch
  deriving DecidableEq, Repr

/-- Apply a three-input compiler to an input list, checking the arity. -/
def compile3
    (f : CellRef → CellRef → CellRef → ReducedCompiledInvocation) :
    List CellRef → Except CompileError ReducedCompiledInvocation
  | [x, y, z] => .ok (f x y z)
  | _ => .error .arityMismatch

/-- Apply a two-input compiler to an input list, checking the arity. -/
def compile2
    (f : CellRef → CellRef → ReducedCompiledInvocation) :
    List CellRef → Except CompileError ReducedCompiledInvocation
  | [x, y] => .ok (f x y)
  | _ => .error .arityMismatch

/-- Modelled from the spec: the invocation-compiler entry point
(the dispatch body is absent from the sources; only its golden tests are
present).  Dispatches by exact string match to one of the five per-operation
compilers, at statement index 0 as in the test harness. -/
def compile_libfunc (name : String) (inputs : List CellRef) :
    Except CompileError ReducedCompiledInvocation :=
  if name = "uint128_overflow_add" then compile3 (build_uint128_overflow_add 0) inputs
  else if name = "uint128_overflow_sub" then compile3 (build_uint128_overflow_sub 0) inputs
  else if name = "uint128_lt" then compile3 (build_uint128_lt 0) inputs
  else if name = "uint128_eq" then compile2 (build_uint128_eq 0) inputs
  else if name = "uint128_le" then compile3 (build_uint128_le 0) inputs
  else .error .unknownOperation

/-- The five supported operation names. -/
def opNames : List String :=
  ["uint128_overflow_add", "uint128_overflow_sub", "uint128_lt",
   "uint128_eq", "uint128_le"]

/-! ### Golden values

Transcribed from crates/sierra_to_casm/src/invocations/uint128_test.rs: the
exact expected instruction sequences, relocation entries and branch results of
the five worked examples. -/

/-- Golden output of test_add: uint128_overflow_add on
(range check [fp + 2], a [fp + 1], b [ap - 7]). -/
def add_golden : ReducedCompiledInvocation where
  instructions := [
    ⟨.AssertEq ⟨.AP, 1⟩ (.BinOp .Add ⟨.FP, 1⟩ (.Deref ⟨.AP, -7⟩)), true, []⟩,
    ⟨.Jnz 7 ⟨.AP, -1⟩, true,
      [.TestLessThan (.Deref ⟨.AP, 0⟩) (.Immediate u128Limit) ⟨.AP, -1⟩]⟩,
    ⟨.AssertEq ⟨.AP, -1⟩ (.BinOp .Add ⟨.AP, 0⟩ (.Immediate u128Limit)), true, []⟩,
    ⟨.AssertEq ⟨.AP, -1⟩ (.DoubleDeref ⟨.FP, 2⟩ 0), false, []⟩,
    ⟨.Jump 0, false, []⟩,
    ⟨.AssertEq ⟨.AP, -1⟩ (.DoubleDeref ⟨.FP, 2⟩ 0), false, []⟩]
  relocations := [⟨4, .RelativeStatementId 1⟩]
  results := [
    ⟨[.BinOpAdd ⟨.FP, 2⟩ 1, .Deref ⟨.AP, -1⟩], .Known 2⟩,
    ⟨[.BinOpAdd ⟨.FP, 2⟩ 1, .Deref ⟨.AP, -1⟩], .Known 3⟩]

/-- Golden output of test_sub: uint128_overflow_sub on
(range check [ap - 2], a [ap - 1], b [fp + 7]). -/
def sub_golden : ReducedCompiledInvocation where
  instructions := [
    ⟨.AssertEq ⟨.AP, -1⟩ (.BinOp .Add ⟨.AP, 1⟩ (.Deref ⟨.FP, 7⟩)), true, []⟩,
    ⟨.Jnz 7 ⟨.AP, -1⟩, true,
      [.TestLessThan (.Deref ⟨.AP, 0⟩) (.Immediate u128Limit) ⟨.AP, -1⟩]⟩,
    ⟨.AssertEq ⟨.AP, 0⟩ (.BinOp .Add ⟨.AP, -1⟩ (.Immediate u128Limit)), true, []⟩,
    ⟨.AssertEq ⟨.AP, -1⟩ (.DoubleDeref ⟨.AP, -5⟩ 0), false, []⟩,
    ⟨.Jump 0, false, []⟩,
    ⟨.AssertEq ⟨.AP, -1⟩ (.DoubleDeref ⟨.AP, -4⟩ 0), false, []⟩]
  relocations := [⟨4, .RelativeStatementId 1⟩]
  results := [
    ⟨[.BinOpAdd ⟨.AP, -4⟩ 1, .Deref ⟨.AP, -1⟩], .Known 2⟩,
    ⟨[.BinOpAdd ⟨.AP, -5⟩ 1, .Deref ⟨.AP, -1⟩], .Known 3⟩]

/-- Golden output of test_lt: uint128_lt on
(range check [fp - 5], a [ap - 7], b [ap - 6]). -/
def lt_golden : ReducedCompiledInvocation where
  instructions := [
    ⟨.Jnz 8 ⟨.AP, 0⟩, true,
      [.TestLessThanOrEqual (.Deref ⟨.AP, -6⟩) (.Deref ⟨.AP, -7⟩) ⟨.AP, 0⟩]⟩,
    ⟨.AssertEq ⟨.AP, 0⟩ (.BinOp .Add ⟨.AP, -8⟩ (.Immediate 1)), true, []⟩,
    ⟨.AssertEq ⟨.AP, -8⟩ (.BinOp .Add ⟨.AP, 0⟩ (.Deref ⟨.AP, -1⟩)), true, []⟩,
    ⟨.AssertEq ⟨.AP, -1⟩ (.DoubleDeref ⟨.FP, -5⟩ 0), false, []⟩,
    ⟨.Jump 0, false, []⟩,
    ⟨.AssertEq ⟨.AP, -8⟩ (.BinOp .Add ⟨.AP, 0⟩ (.Deref ⟨.AP, -7⟩)), true, []⟩,
    ⟨.AssertEq ⟨.AP, -1⟩ (.DoubleDeref ⟨.FP, -5⟩ 0), false, []⟩]
  relocations := [⟨4, .RelativeStatementId 1⟩]
  results := [
    ⟨[.BinOpAdd ⟨.FP, -5⟩ 1], .Known 2⟩,
    ⟨[.BinOpAdd ⟨.FP, -5⟩ 1], .Known 3⟩]

/-- Golden output of test_eq: uint128_eq on (a [fp - 4], b [fp - 3]). -/
def eq_golden : ReducedCompiledInvocation where
  instructions := [
    ⟨.AssertEq ⟨.FP, -4⟩ (.BinOp .Add ⟨.AP, 0⟩ (.Deref ⟨.FP, -3⟩)), true, []⟩,
    ⟨.Jnz 4 ⟨.AP, -1⟩, false, []⟩,
    ⟨.Jump 0, false, []⟩]
  relocations := [⟨2, .RelativeStatementId 1⟩]
  results := [⟨[], .Known 1⟩, ⟨[], .Known 1⟩]

/-- Golden output of test_le: uint128_le on
(range check [fp - 5], a [ap - 7], b [ap - 6]). -/
def le_golden : ReducedCompiledInvocation where
  instructions := [
    ⟨.Jnz 6 ⟨.AP, 0⟩, true,
      [.TestLessThan (.Deref ⟨.AP, -6⟩) (.Deref ⟨.AP, -7⟩) ⟨.AP, 0⟩]⟩,
    ⟨.AssertEq ⟨.AP, -7⟩ (.BinOp .Add ⟨.AP, 0⟩ (.Deref ⟨.AP, -8⟩)), true, []⟩,
    ⟨.AssertEq ⟨.AP, -1⟩ (.DoubleDeref ⟨.FP, -5⟩ 0), false, []⟩,
    ⟨.Jump 0, false, []⟩,
    ⟨.AssertEq ⟨.AP, 0⟩ (.BinOp .Add ⟨.AP, -7⟩ (.Immediate 1)), true, []⟩,
    ⟨.AssertEq ⟨.AP, -9⟩ (.BinOp .Add ⟨.AP, 0⟩ (.Deref ⟨.AP, -1⟩)), true, []⟩,
    ⟨.AssertEq ⟨.AP, -1⟩ (.DoubleDeref ⟨.FP, -5⟩ 0), false, []⟩]
  relocations := [⟨3, .RelativeStatementId 1⟩]
  results := [
    ⟨[.BinOpAdd ⟨.FP, -5⟩ 1], .Known 3⟩,
    ⟨[.BinOpAdd ⟨.FP, -5⟩ 1], .Known 2⟩]

/-! ### Instruction sizes and branch-path simulation

Target-assembly instructions occupy one machine word, plus one more for an
immediate operand; relative jump offsets count words from the start of the
jump instruction itself.  The simulation below follows one straight-line
branch of a compiled invocation, given the value of the single condition
cell, and records which instructions execute and how the branch exits. -/

/-- Word size of one instruction: two words when an immediate is encoded,
one word otherwise. -/
def instrSize (i : Instruction) : Nat :=
  match i.body with
  | .AssertEq _ (.Immediate _) => 2
  | .AssertEq _ (.BinOp _ _ (.Immediate _)) => 2
  | .AssertEq _ _ => 1
  | .Jump _ => 2
  | .Jnz _ _ => 2

/-- Total word size of an instruction sequence. -/
def codeSize (l : List Instruction) : Nat := (l.map instrSize).sum

/-- Word offset of the instruction at a given index. -/
def wordOf (l : List Instruction) (i : Nat) : Nat := codeSize (l.take i)

/-- The instruction index starting at a given word offset, if any. -/
def indexOfWord (l : List Instruction) (w : Nat) : Option Nat :=
  (List.range l.length).find? (fun i => wordOf l i == w)

/-- How one branch leaves the compiled operation: by falling past the last
word (reaching the next statement directly) or through the zero-offset jump
that the relocation table re-targets. -/
inductive PathExit
  | fellThrough
  | relocJump
  deriving DecidableEq, Repr

/-- Execute one branch from the instruction at the given index: cond is the
value of the condition cell tested by the (single) conditional jump.  Returns
the executed instruction indices in order and the way the branch exits. -/
def runFrom (l : List Instruction) :
    Nat → Nat → Bool → Option (List Nat × PathExit)
  | 0, _, _ => none
  | fuel + 1, idx, cond =>
    match l.get? idx with
    | none => none
    | some ins =>
      let next : Int → Option (List Nat × PathExit) := fun w =>
        if w = (codeSize l : Int) then some ([idx], .fellThrough)
        else if w < 0 then none
        else
          match indexOfWord l w.toNat with
          | none => none
          | some j => (runFrom l fuel j cond).map (fun p => (idx :: p.1, p.2))
      match ins.body with
      | .Jump t =>
        if t = 0 then some ([idx], .relocJump)
        else next ((wordOf l idx : Int) + t)
      | .Jnz t _ =>
        if cond then next ((wordOf l idx : Int) + t)
        else next ((wordOf l idx : Int) + (instrSize ins : Int))
      | .AssertEq _ _ => next ((wordOf l idx : Int) + (instrSize ins : Int))

/-- The executed branch of an instruction sequence, from its first
instruction, for a given condition-cell value. -/
def pathTrace (l : List Instruction) (cond : Bool) :
    Option (List Nat × PathExit) :=
  runFrom l (l.length + 1) 0 cond

/-- Number of allocation-pointer advances along the executed branch. -/
def pathApCount (l : List Instruction) (cond : Bool) : Option Nat :=
  (pathTrace l cond).map fun p =>
    (p.1.filter fun i =>
      match l.get? i with
      | some ins => ins.inc_ap
      | none => false).length

/-- Index of the BranchResult the executed branch corresponds to: the branch
falling past the end of the sequence is the first declared branch, the branch
leaving through the relocated zero-offset jump is the second (the spec fixes
the relocation target of the second branch at the following statement). -/
def takenResultIndex (l : List Instruction) (cond : Bool) : Option Nat :=
  (pathTrace l cond).map fun p =>
    match p.2 with
    | .fellThrough => 0
    | .relocJump => 1

/-! ### Hint evaluation -/

/-- Destination cell of a hint. -/
def hintDst : Hint → CellRef
  | .TestLessThan _ _ d => d
  | .TestLessThanOrEqual _ _ d => d

/-- A memory assignment given by a finite table; unlisted cells read zero. -/
def listMem (entries : List (CellRef × Int)) (c : CellRef) : Int :=
  match entries.find? (fun e => e.1 == c) with
  | some e => e.2
  | none => 0

/-- Value of a hint operand under a memory assignment. -/
def evalResOperand (mem : CellRef → Int) : ResOperand → Option Int
  | .Deref c => some (mem c)
  | .Immediate n => some n
  | _ => none

/-- The boolean a hint writes into its destination cell. -/
def evalHintValue (mem : CellRef → Int) : Hint → Option Bool
  | .TestLessThan l r _ =>
    (evalResOperand mem l).bind fun x =>
      (evalResOperand mem r).map fun y => decide (x < y)
  | .TestLessThanOrEqual l r _ =>
    (evalResOperand mem l).bind fun x =>
      (evalResOperand mem r).map fun y => decide (x ≤ y)

/-- First hint attached anywhere in a compiled invocation. -/
def firstHint (ci : ReducedCompiledInvocation) : Option Hint :=
  ci.instructions.findSome? fun i => i.hints.head?

/-- For the golden uint128_lt invocation with operand values va (at the a cell
[ap - 7]) and vb (at the b cell [ap - 6]): the index of the BranchResult of
the branch that actually executes, obtained by evaluating the emitted hint and
following the jump it feeds. -/
def ltTakenIndex (va vb : Int) : Option Nat :=
  match firstHint lt_golden with
  | none => none
  | some h =>
    match evalHintValue (listMem [(⟨.AP, -7⟩, va), (⟨.AP, -6⟩, vb)]) h with
    | none => none
    | some cond => takenResultIndex lt_golden.instructions cond

/-- Same as ltTakenIndex for the golden uint128_le invocation. -/
def leTakenIndex (va vb : Int) : Option Nat :=
  match firstHint le_golden with
  | none => none
  | some h =>
    match evalHintValue (listMem [(⟨.AP, -7⟩, va), (⟨.AP, -6⟩, vb)]) h with
    | none => none
    | some cond => takenResultIndex le_golden.instructions cond

/-! ### Structural predicates -/

/-- An instruction eligible to carry a relocation: the zero-offset
unconditional jump emitted as the symbolic placeholder for a statement-level
target. -/
def isRelocTarget (i : Instruction) : Bool :=
  match i.body with
  | .Jump 0 => true
  | _ => false

/-- Number of relocation entries naming a given instruction index. -/
def relocCountAt (ci : ReducedCompiledInvocation) (i : Nat) : Nat :=
  (ci.relocations.filter (fun e => e.instruction_idx == i)).length

/-- Relocation integrity: every relocation entry points at a zero-offset jump,
every zero-offset jump (the jumps whose real target is a statement, resolved
later) carries exactly one entry, and every other instruction (including the
fixed-offset intra-operation jumps) carries none. -/
def relocationIntegrity (ci : ReducedCompiledInvocation) : Bool :=
  ((List.range ci.instructions.length).all fun i =>
    match ci.instructions.get? i with
    | none => false
    | some ins =>
      if isRelocTarget ins then relocCountAt ci i == 1
      else relocCountAt ci i == 0) &&
  (ci.relocations.all fun e =>
    match ci.instructions.get? e.instruction_idx with
    | none => false
    | some ins => isRelocTarget ins)

/-- Every hint is attached to a conditional jump whose condition cell is
exactly the cell the hint writes. -/
def hintsAligned (ci : ReducedCompiledInvocation) : Bool :=
  ci.instructions.all fun i =>
    i.hints.all fun h =>
      match i.body with
      | .Jnz _ c => c == hintDst h
      | _ => false

/-- At least one instruction carries a hint. -/
def hasHint (ci : ReducedCompiledInvocation) : Bool :=
  ci.instructions.any fun i => !i.hints.isEmpty

/-- Absolute offset (from the allocation pointer at operation entry) denoted
by an ap-based reference read at the given ap depth. -/
def absApOffset (apDepth : Int) (c : CellRef) : Option Int :=
  match c.register with
  | .AP => some (apDepth + c.offset)
  | .FP => none

/-! ### Arity lemmas for the dispatch entry point -/

/-- A three-input compiler rejects any input list whose length is not 3. -/
theorem compile3_arity
    (f : CellRef → CellRef → CellRef → ReducedCompiledInvocation) :
    ∀ l : List CellRef, l.length ≠ 3 →
      compile3 f l = .error .arityMismatch := by
  intro l h
  rcases l with _ | ⟨x, l⟩
  · rfl
  rcases l with _ | ⟨y, l⟩
  · rfl
  rcases l with _ | ⟨z, l⟩
  · rfl
  rcases l with _ | ⟨w, l⟩
  · exact absurd rfl h
  · rfl

/-- A three-input compiler succeeds on any input list of length 3. -/
theorem compile3_ok
    (f : CellRef → CellRef → CellRef → ReducedCompiledInvocation) :
    ∀ l : List CellRef, l.length = 3 →
      ∃ ci, compile3 f l = .ok ci := by
  intro l h
  rcases l with _ | ⟨x, l⟩
  · simp at h
  rcases l with _ | ⟨y, l⟩
  · simp at h
  rcases l with _ | ⟨z, l⟩
  · simp at h
  rcases l with _ | ⟨w, l⟩
  · exact ⟨f x y z, rfl⟩
  · simp only [List.length_cons] at h
    omega

/-- A two-input compiler rejects any input list whose length is not 2. -/
theorem compile2_arity
    (f : CellRef → CellRef → ReducedCompiledInvocation) :
    ∀ l : List CellRef, l.length ≠ 2 →
      compile2 f l = .error .arityMismatch := by
  intro l h
  rcases l with _ | ⟨x, l⟩
  · rfl
  rcases l with _ | ⟨y, l⟩
  · rfl
  rcases l with _ | ⟨z, l⟩
  · exact absurd rfl h
  · rfl

/-- A two-input compiler succeeds on any input list of length 2. -/
theorem compile2_ok
    (f : CellRef → CellRef → ReducedCompiledInvocation) :
    ∀ l : List CellRef, l.length = 2 →
      ∃ ci, compile2 f l = .ok ci := by
  intro l h
  rcases l with _ | ⟨x, l⟩
  · simp at h
  rcases l with _ | ⟨y, l⟩
  · simp at h
  rcases l with _ | ⟨z, l⟩
  · exact ⟨f x y, rfl⟩
  · simp only [List.length_cons] at h
    omega

/-! ### Claim theorems -/

/-- Claim C1: compiling each of the five operations on the exact worked-example
input references yields a CompiledInvocation whose instruction sequence,
relocation entries and branch results equal the golden values transcribed from
the reference test suite, including instruction order, operand offsets and
ap-change numbers. -/
theorem uint128_golden_outputs :
    compile_libfunc "uint128_overflow_add"
        [⟨.FP, 2⟩, ⟨.FP, 1⟩, ⟨.AP, -7⟩] = .ok add_golden ∧
    compile_libfunc "uint128_overflow_sub"
        [⟨.AP, -2⟩, ⟨.AP, -1⟩, ⟨.FP, 7⟩] = .ok sub_golden ∧
    compile_libfunc "uint128_lt"
        [⟨.FP, -5⟩, ⟨.AP, -7⟩, ⟨.AP, -6⟩] = .ok lt_golden ∧
    compile_libfunc "uint128_eq"
        [⟨.FP, -4⟩, ⟨.FP, -3⟩] = .ok eq_golden ∧
    compile_libfunc "uint128_le"
        [⟨.FP, -5⟩, ⟨.AP, -7⟩, ⟨.AP, -6⟩] = .ok le_golden :=
  ⟨rfl, rfl, rfl, rfl, rfl⟩

/-- Claim C2 counterexample: the claim locates the statement-level relocation
on the no-overflow branch, but it lies on the overflow branch.  Concretely:
the golden overflow-add invocation has a single relocation entry, at
instruction 4; with sum value 5 (below 2 to the 128th, i.e. no overflow) the
emitted hint evaluates to true, the conditional jump is taken, and the
executed no-overflow branch is instructions [0, 1, 5] — which does not contain
instruction 4 and exits by falling through, so no relocated jump is executed
on the no-overflow branch; the relocated jump runs only on the overflow branch
[0, 1, 2, 3, 4].  The no-overflow branch is indeed the one listed first
(ap count 2, matching results[0]). -/
theorem overflow_add_reloc_path_cex :
    add_golden.relocations = [⟨4, .RelativeStatementId 1⟩] ∧
    firstHint add_golden =
      some (.TestLessThan (.Deref ⟨.AP, 0⟩) (.Immediate u128Limit) ⟨.AP, -1⟩) ∧
    evalHintValue (listMem [(⟨.AP, 0⟩, 5)])
      (.TestLessThan (.Deref ⟨.AP, 0⟩) (.Immediate u128Limit) ⟨.AP, -1⟩) =
      some true ∧
    pathTrace add_golden.instructions true = some ([0, 1, 5], .fellThrough) ∧
    ([0, 1, 5].contains 4) = false ∧
    pathTrace add_golden.instructions false =
      some ([0, 1, 2, 3, 4], .relocJump) ∧
    pathApCount add_golden.instructions true = some 2 ∧
    (add_golden.results.get? 0).map (fun r => r.ap_change) =
      some (.Known 2) := by
  refine ⟨rfl, rfl, ?_, rfl, rfl, rfl, rfl, rfl⟩
  show some (decide ((5 : Int) < u128Limit)) = some true
  norm_num [u128Limit]

/-- Claim C2, amended: the result branches of overflow-add are ordered
[no-overflow, overflow], the jumped-to no-overflow branch listed first; the
no-overflow branch (instructions [0, 1, 5], ap count 2) falls through to the
next statement and reports (range-check pointer + 1, sum) with ap change
Known 2, while the overflow branch (instructions [0, 1, 2, 3, 4], ap count 3)
ends in the relocation-patched jump to the next statement (idx + 1) and
reports (range-check pointer + 1, wrapped sum) with ap change Known 3.
The sum cell is the destination of instruction 0 ([ap + 1] at entry depth 0,
absolute offset 1, equal to [ap - 1] at depth 2) and the wrapped-sum cell is
the fresh cell of instruction 2 ([ap + 0] at depth 2, absolute offset 2,
equal to [ap - 1] at depth 3). -/
theorem overflow_add_branches :
    ∀ (idx : Nat) (rc a b : CellRef),
      (build_uint128_overflow_add idx rc a b).results =
        [⟨[.BinOpAdd (advanceRef 2 rc) 1, .Deref ⟨.AP, -1⟩], .Known 2⟩,
         ⟨[.BinOpAdd (advanceRef 3 rc) 1, .Deref ⟨.AP, -1⟩], .Known 3⟩] ∧
      pathTrace (build_uint128_overflow_add idx rc a b).instructions true =
        some ([0, 1, 5], .fellThrough) ∧
      pathTrace (build_uint128_overflow_add idx rc a b).instructions false =
        some ([0, 1, 2, 3, 4], .relocJump) ∧
      pathApCount (build_uint128_overflow_add idx rc a b).instructions true =
        some 2 ∧
      pathApCount (build_uint128_overflow_add idx rc a b).instructions false =
        some 3 ∧
      (build_uint128_overflow_add idx rc a b).relocations =
        [⟨4, .RelativeStatementId (idx + 1)⟩] ∧
      absApOffset 2 ⟨.AP, -1⟩ = absApOffset 0 ⟨.AP, 1⟩ ∧
      absApOffset 3 ⟨.AP, -1⟩ = absApOffset 2 ⟨.AP, 0⟩ :=
  fun idx rc a b => ⟨rfl, rfl, rfl, rfl, rfl, rfl, rfl, rfl⟩

/-- Claim C3: in the golden overflow-sub invocation the first result entries
of the two branches are distinct syntactic offsets from the original
range-check operand cell ([ap - 4] + 1 on the first branch, [ap - 5] + 1 on
the second — the original [ap - 2] seen after two and three ap advances
respectively, hence the same absolute cell), while the second result entry is
the same fresh output cell [ap - 1] on both branches, with ap changes Known 2
then Known 3. -/
theorem overflow_sub_result_refs :
    sub_golden.results.map (fun r => r.refs.head?) =
      [some (.BinOpAdd ⟨.AP, -4⟩ 1), some (.BinOpAdd ⟨.AP, -5⟩ 1)] ∧
    (CellExpression.BinOpAdd ⟨.AP, -4⟩ 1) ≠ .BinOpAdd ⟨.AP, -5⟩ 1 ∧
    advanceRef 2 ⟨.AP, -2⟩ = ⟨.AP, -4⟩ ∧
    advanceRef 3 ⟨.AP, -2⟩ = ⟨.AP, -5⟩ ∧
    sub_golden.results.map (fun r => r.refs.get? 1) =
      [some (.Deref ⟨.AP, -1⟩), some (.Deref ⟨.AP, -1⟩)] ∧
    sub_golden.results.map (fun r => r.ap_change) = [.Known 2, .Known 3] := by
  refine ⟨rfl, ?_, rfl, rfl, rfl, rfl⟩
  decide

/-- Claim C4 counterexample: the claim orders the comparison branches
[true, false] with Known 2 for the true branch of less-than.  At the concrete
input a = 0, b = 1 (so a less-than b holds), the emitted hint of the golden
less-than invocation (testing b less-or-equal a) evaluates to false, the
conditional jump falls through, and the executed branch leaves through the
relocated jump — i.e. it is the SECOND result branch, whose ap change is
Known 3, not the first with Known 2.  So the true branch is listed second and
has ap change 3. -/
theorem uint128_lt_true_branch_cex :
    (0 : Int) < 1 ∧
    ltTakenIndex 0 1 = some 1 ∧
    (1 : Nat) ≠ 0 ∧
    (lt_golden.results.get? 1).map (fun r => r.ap_change) =
      some (.Known 3) ∧
    ApChange.Known 3 ≠ ApChange.Known 2 := by
  refine ⟨by decide, rfl, by decide, rfl, by decide⟩

/-- Claim C4, amended: for less-than and less-or-equal both branches report
exactly (range-check pointer + 1,) as the single output reference; the branch
order is [false, true] — the branch executed when the comparison fails is
listed first — with ap changes Known 2 / Known 3 for the false / true branch
of less-than and Known 3 / Known 2 for the false / true branch of
less-or-equal (so in both operations the two ap changes are the set {2, 3}
and sum to 5).  The semantic parts evaluate the emitted hints of the golden
invocations on operand values va, vb and follow the conditional jump they
feed. -/
theorem uint128_cmp_branches :
    (∀ (idx : Nat) (rc a b : CellRef),
      (build_uint128_lt idx rc a b).results =
        [⟨[.BinOpAdd (advanceRef 2 rc) 1], .Known 2⟩,
         ⟨[.BinOpAdd (advanceRef 3 rc) 1], .Known 3⟩]) ∧
    (∀ (idx : Nat) (rc a b : CellRef),
      (build_uint128_le idx rc a b).results =
        [⟨[.BinOpAdd (advanceRef 3 rc) 1], .Known 3⟩,
         ⟨[.BinOpAdd (advanceRef 2 rc) 1], .Known 2⟩]) ∧
    (∀ va vb : Int, va < vb → ltTakenIndex va vb = some 1) ∧
    (∀ va vb : Int, vb ≤ va → ltTakenIndex va vb = some 0) ∧
    (∀ va vb : Int, va ≤ vb → leTakenIndex va vb = some 1) ∧
    (∀ va vb : Int, vb < va → leTakenIndex va vb = some 0) := by
  refine ⟨fun idx rc a b => rfl, fun idx rc a b => rfl, ?_, ?_, ?_, ?_⟩
  · intro va vb h
    show takenResultIndex lt_golden.instructions (decide (vb ≤ va)) = some 1
    rw [decide_eq_false (by omega : ¬ vb ≤ va)]
    rfl
  · intro va vb h
    show takenResultIndex lt_golden.instructions (decide (vb ≤ va)) = some 0
    rw [decide_eq_true h]
    rfl
  · intro va vb h
    show takenResultIndex le_golden.instructions (decide (vb < va)) = some 1
    rw [decide_eq_false (by omega : ¬ vb < va)]
    rfl
  · intro va vb h
    show takenResultIndex le_golden.instructions (decide (vb < va)) = some 0
    rw [decide_eq_true h]
    rfl

/-- Witness for uint128_cmp_branches: its comparison hypotheses discharged at
the concrete operand values (0, 1), (1, 0), (0, 0) and (0, -1). -/
theorem uint128_cmp_branches_witness :
    ltTakenIndex 0 1 = some 1 ∧ ltTakenIndex 1 0 = some 0 ∧
    leTakenIndex 0 0 = some 1 ∧ leTakenIndex 0 (-1) = some 0 :=
  ⟨uint128_cmp_branches.2.2.1 0 1 (by decide),
   uint128_cmp_branches.2.2.2.1 1 0 (by decide),
   uint128_cmp_branches.2.2.2.2.1 0 0 (by decide),
   uint128_cmp_branches.2.2.2.2.2 0 (-1) (by decide)⟩

/-- Claim C5 counterexample: in the golden equality invocation the zero-offset
jump at instruction 2 — reached by the equal path, which falls through the
conditional jump — DOES carry a relocation entry (the single entry
⟨2, statement 1⟩), contradicting the claim that it carries none. -/
theorem uint128_eq_rel0_reloc_cex :
    eq_golden.relocations = [⟨2, .RelativeStatementId 1⟩] ∧
    eq_golden.instructions.get? 2 = some ⟨.Jump 0, false, []⟩ ∧
    pathTrace eq_golden.instructions false = some ([0, 1, 2], .relocJump) :=
  ⟨rfl, rfl, rfl⟩

/-- Claim C5, amended: for the equality operation the equal path (condition
cell a - b equal to zero, so the conditional jump falls through) reaches the
zero-offset jump at instruction 2, which acts as the branch transfer and
carries the single relocation entry of the invocation (re-targeted to
statement idx + 1 by the assembler); the conditional not-equal jump at
instruction 1 is the jump with no relocation entry, and the not-equal path
exits past the end of the sequence. -/
theorem uint128_eq_label_jump :
    ∀ (idx : Nat) (a b : CellRef),
      (build_uint128_eq idx a b).instructions.get? 2 =
        some ⟨.Jump 0, false, []⟩ ∧
      (build_uint128_eq idx a b).relocations =
        [⟨2, .RelativeStatementId (idx + 1)⟩] ∧
      pathTrace (build_uint128_eq idx a b).instructions false =
        some ([0, 1, 2], .relocJump) ∧
      pathTrace (build_uint128_eq idx a b).instructions true =
        some ([0, 1], .fellThrough) ∧
      relocCountAt (build_uint128_eq idx a b) 1 = 0 :=
  fun idx a b => ⟨rfl, rfl, rfl, rfl, rfl⟩

/-- Claim C6: for every pair of input references, both result branches of the
equality operation report an empty output-reference list and ap change
Known 1. -/
theorem uint128_eq_branch_results :
    ∀ a b : CellRef,
      (compile_libfunc "uint128_eq" [a, b]).map
          (fun ci => ci.results) =
        .ok [⟨[], .Known 1⟩, ⟨[], .Known 1⟩] :=
  fun a b => rfl

/-- Claim C7: for every input, each of the five compiled invocations satisfies
relocation integrity — every relocation entry points at a zero-offset jump
(the placeholder form of a jump whose target is a later statement), every such
jump carries exactly one entry at its instruction index, and every other
instruction, in particular every fixed-offset intra-operation jump, carries
none. -/
theorem relocation_integrity_all :
    ∀ (idx : Nat) (rc a b : CellRef),
      relocationIntegrity (build_uint128_overflow_add idx rc a b) = true ∧
      relocationIntegrity (build_uint128_overflow_sub idx rc a b) = true ∧
      relocationIntegrity (build_uint128_lt idx rc a b) = true ∧
      relocationIntegrity (build_uint128_eq idx a b) = true ∧
      relocationIntegrity (build_uint128_le idx rc a b) = true :=
  fun idx rc a b => ⟨rfl, rfl, rfl, rfl, rfl⟩

/-- Claim C8: on every valid input, the overflow branch (listed second) of
overflow-add and of overflow-sub has an ap change exactly one more than the
no-overflow branch (listed first). -/
theorem overflow_ap_change_relation :
    ∀ (idx : Nat) (rc a b : CellRef),
      (∃ n, (build_uint128_overflow_add idx rc a b).results.map
          (fun r => r.ap_change) = [.Known n, .Known (n + 1)]) ∧
      (∃ n, (build_uint128_overflow_sub idx rc a b).results.map
          (fun r => r.ap_change) = [.Known n, .Known (n + 1)]) :=
  fun idx rc a b => ⟨⟨2, rfl⟩, ⟨2, rfl⟩⟩

/-- Claim C9: the invocation compiler fails with the unknown-operation error
on every name outside the five fixed strings, fails with the arity-mismatch
error whenever a correctly named operation receives an input list whose length
differs from its fixed arity (3 for the overflow operations and both
comparisons, 2 for equality), and returns a CompiledInvocation otherwise. -/
theorem compile_dispatch :
    (∀ name, name ∉ opNames →
      ∀ inputs, compile_libfunc name inputs = .error .unknownOperation) ∧
    (∀ inputs : List CellRef,
      (inputs.length ≠ 3 →
        compile_libfunc "uint128_overflow_add" inputs = .error .arityMismatch) ∧
      (inputs.length ≠ 3 →
        compile_libfunc "uint128_overflow_sub" inputs = .error .arityMismatch) ∧
      (inputs.length ≠ 3 →
        compile_libfunc "uint128_lt" inputs = .error .arityMismatch) ∧
      (inputs.length ≠ 2 →
        compile_libfunc "uint128_eq" inputs = .error .arityMismatch) ∧
      (inputs.length ≠ 3 →
        compile_libfunc "uint128_le" inputs = .error .arityMismatch)) ∧
    (∀ inputs : List CellRef,
      (inputs.length = 3 →
        (∃ ci, compile_libfunc "uint128_overflow_add" inputs = .ok ci) ∧
        (∃ ci, compile_libfunc "uint128_overflow_sub" inputs = .ok ci) ∧
        (∃ ci, compile_libfunc "uint128_lt" inputs = .ok ci) ∧
        (∃ ci, compile_libfunc "uint128_le" inputs = .ok ci)) ∧
      (inputs.length = 2 →
        ∃ ci, compile_libfunc "uint128_eq" inputs = .ok ci)) := by
  refine ⟨?_, ?_, ?_⟩
  · intro name h inputs
    simp only [opNames, List.mem_cons, List.not_mem_nil, or_false,
      not_or] at h
    obtain ⟨h1, h2, h3, h4, h5⟩ := h
    simp [compile_libfunc, h1, h2, h3, h4, h5]
  · intro inputs
    exact ⟨fun h => compile3_arity _ inputs h,
      fun h => compile3_arity _ inputs h,
      fun h => compile3_arity _ inputs h,
      fun h => compile2_arity _ inputs h,
      fun h => compile3_arity _ inputs h⟩
  · intro inputs
    refine ⟨fun h => ⟨?_, ?_, ?_, ?_⟩, fun h => ?_⟩
    · exact compile3_ok (build_uint128_overflow_add 0) inputs h
    · exact compile3_ok (build_uint128_overflow_sub 0) inputs h
    · exact compile3_ok (build_uint128_lt 0) inputs h
    · exact compile3_ok (build_uint128_le 0) inputs h
    · exact compile2_ok (build_uint128_eq 0) inputs h

/-- Witness for compile_dispatch: its hypotheses discharged at the concrete
name "uint128_mul" and at concrete input lists of lengths 1, 2 and 3. -/
theorem compile_dispatch_witness :
    compile_libfunc "uint128_mul" [] = .error .unknownOperation ∧
    compile_libfunc "uint128_eq" [⟨.FP, 0⟩] = .error .arityMismatch ∧
    (∃ ci, compile_libfunc "uint128_eq" [⟨.FP, 0⟩, ⟨.FP, 1⟩] = .ok ci) ∧
    (∃ ci, compile_libfunc "uint128_lt"
      [⟨.FP, 0⟩, ⟨.FP, 1⟩, ⟨.FP, 2⟩] = .ok ci) :=
  ⟨compile_dispatch.1 "uint128_mul" (by decide) [],
   (compile_dispatch.2.1 [⟨.FP, 0⟩]).2.2.2.1 (by decide),
   (compile_dispatch.2.2 [⟨.FP, 0⟩, ⟨.FP, 1⟩]).2 rfl,
   ((compile_dispatch.2.2 [⟨.FP, 0⟩, ⟨.FP, 1⟩, ⟨.FP, 2⟩]).1 rfl).2.2.1⟩

/-- Claim C10: in each of the four hint-using operations every emitted hint is
attached directly to a conditional jump whose condition cell is exactly the
cell the hint writes (the casm form attaches a hint to the instruction that
follows it, so the hinted value is the branch condition of that jump), each of
the four does emit a hint, and the equality operation emits none. -/
theorem hint_condition_alignment :
    ∀ (idx : Nat) (rc a b : CellRef),
      (hintsAligned (build_uint128_overflow_add idx rc a b) = true ∧
        hasHint (build_uint128_overflow_add idx rc a b) = true) ∧
      (hintsAligned (build_uint128_overflow_sub idx rc a b) = true ∧
        hasHint (build_uint128_overflow_sub idx rc a b) = true) ∧
      (hintsAligned (build_uint128_lt idx rc a b) = true ∧
        hasHint (build_uint128_lt idx rc a b) = true) ∧
      (hintsAligned (build_uint128_le idx rc a b) = true ∧
        hasHint (build_uint128_le idx rc a b) = true) ∧
      (build_uint128_eq idx a b).instructions.all
        (fun i => i.hints.isEmpty) = true :=
  fun idx rc a b => ⟨⟨rfl, rfl⟩, ⟨rfl, rfl⟩, ⟨rfl, rfl⟩, ⟨rfl, rfl⟩, rfl⟩

end Uint128
